import Mathlib

/-!
# ip-location-finder: the single-provider query, the provider table and the list handlers

A shallow embedding of `main.go`.  Go strings are Lean `String`s (the
replacement and comparison functions work on their character lists), the
HTTP client and the JSON path engine are parameters of the query, the
result channel is a transition system on an explicit state.
-/

namespace IPLocationFinder

/-! ## Data model -/

/-- The record `ipInfo` of `main.go`: it is used both for a provider descriptor
(url template and four field paths) and for a lookup result. -/
structure ipInfo where
  ip : String := ""
  countryName : String := ""
  city : String := ""
  isp : String := ""
  org : String := ""
  url : String := ""
deriving DecidableEq, Repr

/-! ## strings.ReplaceAll -/

/-- Left-to-right replacement of the non-overlapping occurrences of a non-empty
`old`.  The counter is the number of characters of a matched occurrence that
are still to be skipped. -/
def replaceFrom (old new : List Char) : Nat → List Char → List Char
  | _, [] => []
  | k + 1, _ :: cs => replaceFrom old new k cs
  | 0, c :: cs =>
    if old.isPrefixOf (c :: cs) then new ++ replaceFrom old new (old.length - 1) cs
    else c :: replaceFrom old new 0 cs

/-- Modelled from the spec: the library function `strings.ReplaceAll(s, old, new)`,
which is not in the repository: "substitution must replace all occurrences" and
"be literal-string-safe".  Every non-overlapping occurrence of `old` in `s`,
leftmost first, is replaced by `new`; an empty `old` matches before every
character and at the end. -/
def ReplaceAll (s old new : String) : String :=
  if old.data.isEmpty then
    String.mk (new.data ++ s.data.flatMap (fun c => c :: new.data))
  else
    String.mk (replaceFrom old.data new.data 0 s.data)

/-- The substring relation of `strings.Contains(s, substr)`. -/
def Contains (s substr : String) : Prop := substr.data <:+: s.data

instance (s substr : String) : Decidable (Contains s substr) := by
  unfold Contains; infer_instance

/-- The number of non-overlapping occurrences of a non-empty `sub`, counted from
the left; the counter is as in `replaceFrom`. -/
def countFrom (sub : List Char) : Nat → List Char → Nat
  | _, [] => 0
  | k + 1, _ :: cs => countFrom sub k cs
  | 0, c :: cs =>
    if sub.isPrefixOf (c :: cs) then 1 + countFrom sub (sub.length - 1) cs
    else countFrom sub 0 cs

/-- The number of occurrences `ReplaceAll` replaces (`strings.Count`): the
non-overlapping occurrences of `substr` in `s`; for an empty `substr` the number
of characters plus one. -/
def Count (s substr : String) : Nat :=
  if substr.data.isEmpty then s.data.length + 1 else countFrom substr.data 0 s.data

/-- The text before and after the first occurrence of `sep`, on character
lists. -/
def cutList (sep : List Char) : List Char → Option (List Char × List Char)
  | [] => if sep.isEmpty then some ([], []) else none
  | c :: cs =>
    if sep.isPrefixOf (c :: cs) then some ([], (c :: cs).drop sep.length)
    else
      match cutList sep cs with
      | some (before, after) => some (c :: before, after)
      | none => none

/-- The text of `s` before and after the first occurrence of `sep`
(`strings.Cut`); `none` when `sep` does not occur. -/
def Cut (s sep : String) : Option (String × String) :=
  match cutList sep.data s.data with
  | some (before, after) => some (String.mk before, String.mk after)
  | none => none

/-- The number of positions of `s` at which `substr` starts, overlapping
occurrences included. -/
def Occurrences (s substr : String) : Nat :=
  (s.data.tails.filter (fun t => substr.data.isPrefixOf t)).length

/-! ## The HTTP client and the JSON path engine -/

/-- What `client.R().Get(url)` hands back: `err != nil`, or a response with its
status code and body. -/
inductive GetResult where
  | transportError
  | response (StatusCode : Int) (body : String)
deriving DecidableEq, Repr

/-- The constant `http.StatusOK`. -/
def StatusOK : Int := 200

/-- The two libraries `find` calls: the HTTP client (`Get url`) and the JSON
path engine (`lookup body path` is the value `gjson.ParseBytes(body).Get(path)`
finds, `none` when the path does not exist in the body). -/
structure Env where
  Get : String → GetResult
  lookup : String → String → Option String

/-- Modelled from the spec: `String()` of a gjson lookup result, which is not in
the repository: "extract each of the four field paths, defaulting to empty
string if a path is absent". -/
def resultString : Option String → String
  | some v => v
  | none => ""

/-- The function `find` of `main.go`. -/
def find (env : Env) (ip : String) (provider : ipInfo) : ipInfo :=
  let url := ReplaceAll provider.url "1.1.1.1" ip
  match env.Get url with
  | .transportError => {}
  | .response StatusCode body =>
    if StatusCode ≠ StatusOK then {}
    else
      { ip := ip
        countryName := resultString (env.lookup body provider.countryName)
        city := resultString (env.lookup body provider.city)
        isp := resultString (env.lookup body provider.isp)
        org := resultString (env.lookup body provider.org)
        url := url }

/-- The table `providers` of `main.go`. -/
def providers : List ipInfo :=
  [ { url := "https://ipapi.co/1.1.1.1/json/"
      countryName := "country_name"
      city := "city"
      isp := "org"
      org := "org" },
    { url := "http://ip-api.com/json/1.1.1.1"
      countryName := "country"
      city := "city"
      isp := "isp"
      org := "org" },
    { url := "http://ipinfo.io/1.1.1.1/json"
      countryName := "country"
      city := "city"
      isp := "org"
      org := "org" },
    { url := "http://ip.qste.com/json?ip=1.1.1.1"
      countryName := "country"
      city := "city"
      isp := "isp"
      org := "org" } ]


/-! ## The JSON document reader used to instantiate the path engine -/

mutual
/-- A JSON value; a container keeps the text it was read from. -/
inductive JValue where
  | null
  | bool (b : Bool)
  | number (raw : List Char)
  | string (s : List Char)
  | array (raw : List Char) (items : JItems)
  | object (raw : List Char) (members : JMembers)
/-- The elements of a JSON array. -/
inductive JItems where
  | nil
  | cons (v : JValue) (rest : JItems)
/-- The members of a JSON object, in document order. -/
inductive JMembers where
  | nil
  | cons (key : List Char) (v : JValue) (rest : JMembers)
end

/-- The double quote character. -/
def dquote : Char := Char.ofNat 34

/-- The backslash character. -/
def backslash : Char := Char.ofNat 92

/-- JSON whitespace. -/
def isWs (c : Char) : Bool := c = ' ' ∨ c = '\t' ∨ c = '\n' ∨ c = '\r'

/-- Drop leading whitespace. -/
def skipWs : List Char → List Char
  | [] => []
  | c :: cs => if isWs c then skipWs cs else c :: cs

/-- The value of a hexadecimal digit. -/
def hexVal (c : Char) : Option Nat :=
  if '0' ≤ c ∧ c ≤ '9' then some (c.toNat - 48)
  else if 'a' ≤ c ∧ c ≤ 'f' then some (c.toNat - 87)
  else if 'A' ≤ c ∧ c ≤ 'F' then some (c.toNat - 55)
  else none

/-- The code point of a four-digit escape. -/
def hex4 (a b c d : Char) : Option Nat :=
  match hexVal a, hexVal b, hexVal c, hexVal d with
  | some w, some x, some y, some z => some (((w * 16 + x) * 16 + y) * 16 + z)
  | _, _, _, _ => none

/-- The character a one-letter escape stands for. -/
def unescape (e : Char) : Option Char :=
  if e = dquote then some dquote
  else if e = backslash then some backslash
  else if e = '/' then some '/'
  else if e = 'b' then some (Char.ofNat 8)
  else if e = 'f' then some (Char.ofNat 12)
  else if e = 'n' then some '\n'
  else if e = 'r' then some '\r'
  else if e = 't' then some '\t'
  else none

/-- Read a string's contents up to its closing quote (the opening quote is
already consumed); `none` when the string does not end or is not well formed. -/
def readString : Nat → List Char → List Char → Option (List Char × List Char)
  | 0, _, _ => none
  | _ + 1, [], _ => none
  | fuel + 1, c :: rest, acc =>
    if c = dquote then some (acc.reverse, rest)
    else if c = backslash then
      match rest with
      | [] => none
      | e :: r =>
        if e = 'u' then
          match r with
          | h1 :: h2 :: h3 :: h4 :: r' =>
            match hex4 h1 h2 h3 h4 with
            | some n => readString fuel r' (Char.ofNat n :: acc)
            | none => none
          | _ => none
        else
          match unescape e with
          | some x => readString fuel r (x :: acc)
          | none => none
    else if c.toNat < 32 then none
    else readString fuel rest (c :: acc)

/-- The leading decimal digits and what follows them. -/
def digits (cs : List Char) : List Char × List Char := cs.span Char.isDigit

/-- Read a JSON number literal; the result is its text and what follows it. -/
def readNumber (cs : List Char) : Option (List Char × List Char) :=
  let (sign, r0) := match cs with
    | '-' :: r => (['-'], r)
    | _ => ([], cs)
  let (int, r1) := digits r0
  if int = [] ∨ (1 < int.length ∧ int.head? = some '0') then none
  else
    let frac : Option (List Char × List Char) := match r1 with
      | '.' :: r =>
        let (ds, r') := digits r
        if ds = [] then none else some ('.' :: ds, r')
      | _ => some ([], r1)
    match frac with
    | none => none
    | some (fr, r2) =>
      let exp : Option (List Char × List Char) := match r2 with
        | e :: r =>
          if e = 'e' ∨ e = 'E' then
            let (sg, r3) := match r with
              | '+' :: r' => (['+'], r')
              | '-' :: r' => (['-'], r')
              | _ => ([], r)
            let (ds, r4) := digits r3
            if ds = [] then none else some (e :: sg ++ ds, r4)
          else some ([], r2)
        | [] => some ([], r2)
      match exp with
      | none => none
      | some (ex, r5) => some (sign ++ int ++ fr ++ ex, r5)

/-- The text read between `start` and the remainder `rest`. -/
def consumed (start rest : List Char) : List Char := start.take (start.length - rest.length)

mutual
/-- Read one JSON value, with the text that follows it. -/
def parseValue : Nat → List Char → Option (JValue × List Char)
  | 0, _ => none
  | fuel + 1, cs =>
    match skipWs cs with
    | [] => none
    | c :: rest =>
      if c = dquote then
        match readString fuel rest [] with
        | some (s, r) => some (.string s, r)
        | none => none
      else if c = '{' then
        match skipWs rest with
        | '}' :: r => some (.object (consumed (c :: rest) r) .nil, r)
        | _ =>
          match parseMembers fuel rest with
          | some (ms, r) => some (.object (consumed (c :: rest) r) ms, r)
          | none => none
      else if c = '[' then
        match skipWs rest with
        | ']' :: r => some (.array (consumed (c :: rest) r) .nil, r)
        | _ =>
          match parseItems fuel rest with
          | some (xs, r) => some (.array (consumed (c :: rest) r) xs, r)
          | none => none
      else if ['t', 'r', 'u', 'e'].isPrefixOf (c :: rest) then some (.bool true, rest.drop 3)
      else if ['f', 'a', 'l', 's', 'e'].isPrefixOf (c :: rest) then some (.bool false, rest.drop 4)
      else if ['n', 'u', 'l', 'l'].isPrefixOf (c :: rest) then some (.null, rest.drop 3)
      else
        match readNumber (c :: rest) with
        | some (raw, r) => some (.number raw, r)
        | none => none
/-- Read the members of an object up to its closing brace. -/
def parseMembers : Nat → List Char → Option (JMembers × List Char)
  | 0, _ => none
  | fuel + 1, cs =>
    match skipWs cs with
    | [] => none
    | q :: afterQuote =>
      if q = dquote then
        match readString fuel afterQuote [] with
        | none => none
        | some (key, r0) =>
          match skipWs r0 with
          | ':' :: r1 =>
            match parseValue fuel r1 with
            | none => none
            | some (v, r2) =>
              match skipWs r2 with
              | ',' :: r3 =>
                match parseMembers fuel r3 with
                | some (ms, r4) => some (.cons key v ms, r4)
                | none => none
              | '}' :: r3 => some (.cons key v .nil, r3)
              | _ => none
          | _ => none
      else none
/-- Read the elements of an array up to its closing bracket. -/
def parseItems : Nat → List Char → Option (JItems × List Char)
  | 0, _ => none
  | fuel + 1, cs =>
    match parseValue fuel cs with
    | none => none
    | some (v, r0) =>
      match skipWs r0 with
      | ',' :: r1 =>
        match parseItems fuel r1 with
        | some (xs, r2) => some (.cons v xs, r2)
        | none => none
      | ']' :: r1 => some (.cons v .nil, r1)
      | _ => none
end

/-- Split a character list at every occurrence of `sep`. -/
def splitOnChar (sep : Char) : List Char → List (List Char)
  | [] => [[]]
  | c :: cs =>
    if c = sep then [] :: splitOnChar sep cs
    else
      match splitOnChar sep cs with
      | [] => [[c]]
      | seg :: segs => (c :: seg) :: segs

/-- The first member of an object with the given key. -/
def JMembers.find? (key : List Char) : JMembers → Option JValue
  | .nil => none
  | .cons k v rest => if k = key then some v else JMembers.find? key rest

/-- Walk a field path, one object key per segment. -/
def walk : JValue → List (List Char) → Option JValue
  | v, [] => some v
  | .object _ ms, k :: ks =>
    match ms.find? k with
    | some v => walk v ks
    | none => none
  | _, _ :: _ => none

/-- The string a found value is reported as: a string's contents, the text of a
number or container, `true`/`false`, nothing for `null`. -/
def render : JValue → String
  | .null => ""
  | .bool true => "true"
  | .bool false => "false"
  | .number raw => String.mk raw
  | .string s => String.mk s
  | .array raw _ => String.mk raw
  | .object raw _ => String.mk raw

/-- Modelled from the spec: the JSON path lookup `gjson.ParseBytes(body).Get(path)`
of the gjson library, which is not in the repository: "parse the response body as
JSON and extract each of the four field paths", a field path being "a
dot-separated address into a JSON document locating one extracted value".  A
body that is not one JSON document has no value at any path. -/
def jsonLookup (body path : String) : Option String :=
  match parseValue (body.length + 1) body.data with
  | some (v, rest) =>
    if skipWs rest = [] then (walk v (splitOnChar '.' path.data)).map render else none
  | none => none

/-! ## Dotted-quad addresses -/

/-- The number a list of decimal digits writes. -/
def decimalValue (ds : List Char) : Nat := ds.foldl (fun n d => 10 * n + (d.toNat - 48)) 0

/-- One field of a dotted quad: one to three digits, at most 255, no leading
zero. -/
def isOctet (f : List Char) : Bool :=
  f ≠ [] ∧ f.length ≤ 3 ∧ f.all Char.isDigit ∧ decimalValue f ≤ 255 ∧
    (1 < f.length → f.head? ≠ some '0')

/-- Modelled from the spec: a "syntactically valid IPv4" address, the dotted quads
the input validator's `net.ParseIP` (not in the repository) accepts. -/
def isIPv4 (s : String) : Bool :=
  (splitOnChar '.' s.data).length = 4 ∧ (splitOnChar '.' s.data).all isOctet

/-! ## strings.EqualFold -/

/-- The loop `for r != sr && r < tr { r = unicode.SimpleFold(r) }` of
`EqualFold`, started at `r`; the Unicode table behind `SimpleFold` is a
parameter, and so is the bound on the length of its orbits. -/
def foldOrbit (SimpleFold : Nat → Nat) : Nat → Nat → Nat → Nat → Nat
  | 0, _, _, r => r
  | bound + 1, sr, tr, r =>
    if r ≠ sr ∧ r < tr then foldOrbit SimpleFold bound sr tr (SimpleFold r) else r

/-- The test of one pair of characters in `EqualFold`, after the easy case
`tr == sr`: `lo` is the smaller and `hi` the larger of the two. -/
def foldPair (SimpleFold : Nat → Nat) (bound : Nat) (lo hi : Char) : Bool :=
  if hi.toNat < 128 then
    decide ('A' ≤ lo ∧ lo ≤ 'Z' ∧ hi.toNat = lo.toNat + 32)
  else
    foldOrbit SimpleFold bound lo.toNat hi.toNat (SimpleFold lo.toNat) = hi.toNat

/-- The second loop of `EqualFold` (label `hasUnicode`). -/
def equalFoldUnicode (SimpleFold : Nat → Nat) (bound : Nat) : List Char → List Char → Bool
  | [], t => t.isEmpty
  | _ :: _, [] => false
  | sr :: s, tr :: t =>
    if tr = sr then equalFoldUnicode SimpleFold bound s t
    else if tr < sr then
      foldPair SimpleFold bound tr sr && equalFoldUnicode SimpleFold bound s t
    else
      foldPair SimpleFold bound sr tr && equalFoldUnicode SimpleFold bound s t

/-- The first loop of `EqualFold` (the ASCII fast path); it hands over to the
second loop at the first character outside ASCII. -/
def equalFoldASCII (SimpleFold : Nat → Nat) (bound : Nat) : List Char → List Char → Bool
  | [], t => t.isEmpty
  | _ :: _, [] => false
  | sr :: s, tr :: t =>
    if 128 ≤ sr.toNat ∨ 128 ≤ tr.toNat then
      equalFoldUnicode SimpleFold bound (sr :: s) (tr :: t)
    else if tr = sr then equalFoldASCII SimpleFold bound s t
    else if tr < sr then
      decide ('A' ≤ tr ∧ tr ≤ 'Z' ∧ sr.toNat = tr.toNat + 32) &&
        equalFoldASCII SimpleFold bound s t
    else
      decide ('A' ≤ sr ∧ sr ≤ 'Z' ∧ tr.toNat = sr.toNat + 32) &&
        equalFoldASCII SimpleFold bound s t

/-- Modelled from the spec: the library function `strings.EqualFold(s, t)`, which
is not in the repository: "case-insensitive match".  Two strings are equal under
simple case folding, character by character. -/
def EqualFold (SimpleFold : Nat → Nat) (bound : Nat) (s t : String) : Bool :=
  equalFoldASCII SimpleFold bound s.data t.data

/-! ## The list handlers of makeUI -/

/-- The widgets of one list item, as the template callback creates them:
`objs[0]`, `objs[1].Objects[0]`, `objs[1].Objects[1]`, `objs[2]`, `objs[3]`. -/
inductive Widget where
  | url
  | countryName
  | city
  | isp
  | org
deriving DecidableEq, Repr

/-- A call the update callback makes on the list item or on the list. -/
inductive WidgetOp where
  | SetText (w : Widget) (text : String)
  | SetURLFromString (w : Widget) (str : String)
  | Hide (w : Widget)
  | SetItemHeight (i : Nat)
deriving DecidableEq, Repr

/-- The calls of the update callback that do not depend on the ISP/ORG test. -/
def commonOps (d : ipInfo) : List WidgetOp :=
  [ .SetText .url ("URL: " ++ d.url),
    .SetURLFromString .url d.url,
    .SetText .countryName ("Country: " ++ d.countryName),
    .SetText .city ("City: " ++ d.city) ]

/-- The calls of the `if` branch of the update callback. -/
def combinedOps (i : Nat) (d : ipInfo) : List WidgetOp :=
  [ .SetText .isp ("ISP/ORG: " ++ d.isp), .Hide .org, .SetItemHeight i ]

/-- The calls of the `else` branch of the update callback. -/
def separateOps (d : ipInfo) : List WidgetOp :=
  [ .SetText .isp ("ISP: " ++ d.isp), .SetText .org ("ORG: " ++ d.org) ]

/-- The update callback of the list (`func(i widget.ListItemID, o
fyne.CanvasObject)`): the calls it makes for row `i` of `data`, in order; `none`
when `data[i]` is out of range.  The height passed to `SetItemHeight` is not
modelled. -/
def updateItem (SimpleFold : Nat → Nat) (bound : Nat) (data : List ipInfo) (i : Nat) :
    Option (List WidgetOp) :=
  match data[i]? with
  | none => none
  | some d =>
    if d.isp = d.org ∨ EqualFold SimpleFold bound d.isp d.org = true then
      some (commonOps d ++ combinedOps i d)
    else
      some (commonOps d ++ separateOps d)

/-- The state the update callback works on: the texts, the link and the
visibility of the widgets of the item object it is handed, and the rows of the
list that were given a height of their own.  The list hands the callback an
item object it has used before, so this state carries over from one call to the
next. -/
structure ItemView where
  texts : Widget → String
  link : String
  hidden : Widget → Bool
  ownHeight : List Nat

/-- The item the template callback of the list creates: five widgets with their
captions, all visible, no link. -/
def createItem : ItemView :=
  { texts := fun w =>
      match w with
      | .url => "URL: "
      | .countryName => "Country: "
      | .city => "City: "
      | .isp => "ISP: "
      | .org => "ORG: "
    link := ""
    hidden := fun _ => false
    ownHeight := [] }

/-- The effect of one call: `SetText` replaces the widget's text,
`SetURLFromString` the link, `Hide` makes the widget invisible (only a `Show`
would make it visible again, and the callback has none), `SetItemHeight` gives
the row a height of its own. -/
def applyOp (o : ItemView) : WidgetOp → ItemView
  | .SetText w text => { o with texts := Function.update o.texts w text }
  | .SetURLFromString _ str => { o with link := str }
  | .Hide w => { o with hidden := Function.update o.hidden w true }
  | .SetItemHeight i => { o with ownHeight := i :: o.ownHeight }

/-- The update callback as it acts on the item object `o` it is handed: the
calls of `updateItem`, applied to `o` in order. -/
def updateItemOn (SimpleFold : Nat → Nat) (bound : Nat) (data : List ipInfo) (i : Nat)
    (o : ItemView) : Option ItemView :=
  match updateItem SimpleFold bound data i with
  | none => none
  | some ops => some (ops.foldl applyOp o)

/-- The capacity of `make(chan ipInfo, 2)`. -/
def chanCap : Nat := 2

/-- A goroutine `go func(i int) { resultChan <- find(ip, providers[i]) }(i)`:
its argument `i` and the `ip` it captures. -/
structure Goroutine where
  i : Nat
  ip : String
deriving DecidableEq, Repr

/-- The state of one lookup: the goroutines that have not yet completed their
send, the channel's buffer, and the records the consumer has received so far. -/
structure ChanState where
  pending : List Goroutine
  buf : List ipInfo
  received : List ipInfo
deriving DecidableEq, Repr

/-- A step of the system: a goroutine completes its send, or the consumer
receives one record. -/
inductive Action where
  | send (g : Goroutine)
  | recv
deriving DecidableEq, Repr

/-- The function `findIPResults`: an empty channel of capacity `chanCap` and one
goroutine per index of `providers`; nothing is received yet. -/
def findIPResults (ip : String) : ChanState :=
  { pending := (List.range providers.length).map (fun i => { i := i, ip := ip })
    buf := []
    received := [] }

/-- One step.  A send needs room in the buffer (otherwise the goroutine stays
blocked), a receive needs a buffered record (otherwise the consumer waits). -/
def step (env : Env) (s : ChanState) : Action → Option ChanState
  | .send g =>
    match providers[g.i]? with
    | none => none
    | some provider =>
      if g ∈ s.pending ∧ s.buf.length < chanCap then
        some { pending := s.pending.erase g
               buf := s.buf ++ [find env g.ip provider]
               received := s.received }
      else none
  | .recv =>
    match s.buf with
    | [] => none
    | info :: rest => some { pending := s.pending, buf := rest, received := s.received ++ [info] }

/-- The record a goroutine sends; the zero record outside the table. -/
def resultOf (env : Env) (g : Goroutine) : ipInfo :=
  match providers[g.i]? with
  | some provider => find env g.ip provider
  | none => {}

/-- A run: the steps of a schedule, one after the other. -/
def run (env : Env) : ChanState → List Action → Option ChanState
  | s, [] => some s
  | s, a :: as =>
    match step env s a with
    | none => none
    | some s' => run env s' as

/-- The schedule in which the goroutines send in the order of the table and the
consumer receives each record at once. -/
def inOrder (ip : String) : List Action :=
  [.send ⟨0, ip⟩, .recv, .send ⟨1, ip⟩, .recv, .send ⟨2, ip⟩, .recv, .send ⟨3, ip⟩, .recv]

/-- What is still to happen in a state: two steps for each goroutine that has
not sent, one for each buffered record. -/
def stepsLeft (s : ChanState) : Nat := 2 * s.pending.length + s.buf.length

/-- The invariant of a lookup: the pending goroutines are goroutines of the
table, the buffer holds at most `chanCap` records, and the records received,
buffered and still to be sent are, together, one per provider. -/
def Inv (env : Env) (ip : String) (s : ChanState) : Prop :=
  (∀ g ∈ s.pending, g.i < providers.length) ∧ s.buf.length ≤ chanCap ∧
    List.Perm (s.received ++ s.buf ++ s.pending.map (resultOf env))
      (providers.map (find env ip))

/-! ## Responses used to instantiate the theorems -/

/-- The body `{"country":"Wakanda","city":"Test","isp":"X","org":"X"}`. -/
def wakandaBody : String :=
  "\x7b\"country\":\"Wakanda\",\"city\":\"Test\",\"isp\":\"X\",\"org\":\"X\"\x7d"

/-- The body `{"country":"Wakanda","city":"Test","org":"X"}`, without an ISP
field. -/
def noIspBody : String :=
  "\x7b\"country\":\"Wakanda\",\"city\":\"Test\",\"org\":\"X\"\x7d"

/-- A truncated document: `{"country":"Wak`. -/
def truncatedBody : String := "\x7b\"country\":\"Wak"

/-- A client whose every request is answered with the given status and body,
together with the JSON document reader. -/
def fixedEnv (StatusCode : Int) (body : String) : Env :=
  { Get := fun _ => .response StatusCode body, lookup := jsonLookup }

/-- A client whose every request fails in transport. -/
def downEnv : Env :=
  { Get := fun _ => .transportError, lookup := jsonLookup }

/-- A fold table without entries: every character folds to itself only. -/
def noFold : Nat → Nat := fun r => r

/-- A record whose ISP and organization differ in case only. -/
def googleInfo : ipInfo :=
  { ip := "8.8.8.8", countryName := "United States", city := "Mountain View",
    isp := "Google LLC", org := "GOOGLE LLC", url := "http://ip-api.com/json/8.8.8.8" }

/-- A record whose ISP and organization differ. -/
def level3Info : ipInfo :=
  { ip := "8.8.8.8", countryName := "United States", city := "Mountain View",
    isp := "Level 3", org := "Google LLC", url := "http://ip.qste.com/json?ip=8.8.8.8" }

/-- The first entry of `providers`, ipapi.co. -/
def ipapiCo : ipInfo :=
  { url := "https://ipapi.co/1.1.1.1/json/"
    countryName := "country_name"
    city := "city"
    isp := "org"
    org := "org" }

/-- A schedule in which the goroutines of ipinfo.io and ipapi.co send first and
the goroutine of ip-api.com sends last. -/
def staggered : List Action :=
  [.send ⟨2, "8.8.8.8"⟩, .send ⟨0, "8.8.8.8"⟩, .recv, .send ⟨3, "8.8.8.8"⟩, .recv, .recv,
    .send ⟨1, "8.8.8.8"⟩, .recv]

/-- The goroutines of `staggered`, in the order in which they send. -/
def staggeredOrder : List Goroutine :=
  [⟨2, "8.8.8.8"⟩, ⟨0, "8.8.8.8"⟩, ⟨3, "8.8.8.8"⟩, ⟨1, "8.8.8.8"⟩]

/-- The second entry of `providers`, ip-api.com. -/
def ipApiCom : ipInfo :=
  { url := "http://ip-api.com/json/1.1.1.1"
    countryName := "country"
    city := "city"
    isp := "isp"
    org := "org" }

/-! ## The single-provider query -/

/-- The record `find` builds from a response with status 200. -/
theorem find_of_status_ok (env : Env) (ip : String) (provider : ipInfo) (body : String)
    (hget : env.Get (ReplaceAll provider.url "1.1.1.1" ip) = .response 200 body) :
    find env ip provider =
      { ip := ip
        countryName := resultString (env.lookup body provider.countryName)
        city := resultString (env.lookup body provider.city)
        isp := resultString (env.lookup body provider.isp)
        org := resultString (env.lookup body provider.org)
        url := ReplaceAll provider.url "1.1.1.1" ip } := by
  simp [find, hget, StatusOK]

/-- The record `find` returns when the request fails in transport. -/
theorem find_of_transport_error (env : Env) (ip : String) (provider : ipInfo)
    (hget : env.Get (ReplaceAll provider.url "1.1.1.1" ip) = .transportError) :
    find env ip provider = {} := by
  simp [find, hget]

/-- The record `find` returns for a status other than 200. -/
theorem find_of_bad_status (env : Env) (ip : String) (provider : ipInfo) (code : Int)
    (body : String)
    (hget : env.Get (ReplaceAll provider.url "1.1.1.1" ip) = .response code body)
    (hcode : code ≠ 200) :
    find env ip provider = {} := by
  simp [find, hget, StatusOK, hcode]

/-- C1: for a response without transport error and with status 200, `find`
returns the record whose ip is the target ip, whose url is the provider's
template with the placeholder replaced by the ip, and whose countryName, city,
isp and org are the strings the path engine finds in the body at the provider's
four field paths.  In particular, with the JSON document reader as path engine,
a provider whose country path is `country` and the Wakanda body give
countryName `Wakanda`; the registered providers with that country path are
ip-api.com, ipinfo.io and ip.qste.com. -/
theorem find_status_ok_record (env : Env) (ip : String) (provider : ipInfo) (body : String)
    (hget : env.Get (ReplaceAll provider.url "1.1.1.1" ip) = .response 200 body) :
    find env ip provider =
        { ip := ip
          countryName := resultString (env.lookup body provider.countryName)
          city := resultString (env.lookup body provider.city)
          isp := resultString (env.lookup body provider.isp)
          org := resultString (env.lookup body provider.org)
          url := ReplaceAll provider.url "1.1.1.1" ip } ∧
      (provider.countryName = "country" → body = wakandaBody →
        (find { Get := env.Get, lookup := jsonLookup } ip provider).countryName = "Wakanda") ∧
      (providers.filter (fun p => p.countryName = "country")).map (fun p => p.url) =
        ["http://ip-api.com/json/1.1.1.1", "http://ipinfo.io/1.1.1.1/json",
          "http://ip.qste.com/json?ip=1.1.1.1"] := by
  refine ⟨find_of_status_ok env ip provider body hget, ?_, by decide⟩
  intro hpath hbody
  have h := find_of_status_ok { Get := env.Get, lookup := jsonLookup } ip provider body hget
  rw [h, hpath, hbody]
  show resultString (jsonLookup wakandaBody "country") = "Wakanda"
  decide

/-- C1 at ip-api.com, target 8.8.8.8, status 200 and the Wakanda body. -/
theorem find_status_ok_record_witness :
    find (fixedEnv 200 wakandaBody) "8.8.8.8" ipApiCom =
        { ip := "8.8.8.8", countryName := "Wakanda", city := "Test", isp := "X", org := "X",
          url := "http://ip-api.com/json/8.8.8.8" } ∧
      (find { Get := (fixedEnv 200 wakandaBody).Get, lookup := jsonLookup } "8.8.8.8"
        ipApiCom).countryName = "Wakanda" :=
  ⟨(find_status_ok_record (fixedEnv 200 wakandaBody) "8.8.8.8" ipApiCom wakandaBody
      rfl).1.trans (by decide),
    (find_status_ok_record (fixedEnv 200 wakandaBody) "8.8.8.8" ipApiCom wakandaBody
      rfl).2.1 rfl rfl⟩

/-- C2: when the HTTP GET reports a transport error, or returns a status code
other than 200, `find` returns the all-empty record: ip, countryName, city, isp,
org and url are all the empty string. -/
theorem find_failure_all_empty (env : Env) (ip : String) (provider : ipInfo)
    (hget : env.Get (ReplaceAll provider.url "1.1.1.1" ip) = .transportError ∨
      ∃ code body, env.Get (ReplaceAll provider.url "1.1.1.1" ip) = .response code body ∧
        code ≠ 200) :
    find env ip provider =
      { ip := "", countryName := "", city := "", isp := "", org := "", url := "" } := by
  rcases hget with h | ⟨code, body, h, hcode⟩
  · exact find_of_transport_error env ip provider h
  · exact find_of_bad_status env ip provider code body h hcode

/-- C2 at ip-api.com, target 8.8.8.8, status 500 (with a body that would
otherwise be read) and at a transport error. -/
theorem find_failure_all_empty_witness :
    find (fixedEnv 500 wakandaBody) "8.8.8.8" ipApiCom =
        { ip := "", countryName := "", city := "", isp := "", org := "", url := "" } ∧
      find downEnv "8.8.8.8" ipApiCom =
        { ip := "", countryName := "", city := "", isp := "", org := "", url := "" } :=
  ⟨find_failure_all_empty (fixedEnv 500 wakandaBody) "8.8.8.8" ipApiCom
      (Or.inr ⟨500, wakandaBody, rfl, by decide⟩),
    find_failure_all_empty downEnv "8.8.8.8" ipApiCom (Or.inl rfl)⟩

/-- The document reader finds no value in the truncated document, at any path. -/
theorem jsonLookup_truncatedBody (path : String) : jsonLookup truncatedBody path = none := by
  have h : parseValue (truncatedBody.length + 1) truncatedBody.data = none := rfl
  simp only [jsonLookup, h]

/-- C3, as stated, fails: status 200 with the truncated body `{"country":"Wak`,
in which the reader finds nothing at the four paths, gives a record whose ip and
url are not empty. -/
theorem find_malformed_not_all_empty :
    jsonLookup truncatedBody "country" = none ∧
      find (fixedEnv 200 truncatedBody) "8.8.8.8" ipApiCom =
        { ip := "8.8.8.8", countryName := "", city := "", isp := "", org := "",
          url := "http://ip-api.com/json/8.8.8.8" } ∧
      find (fixedEnv 200 truncatedBody) "8.8.8.8" ipApiCom ≠
        { ip := "", countryName := "", city := "", isp := "", org := "", url := "" } := by
  decide

/-- C3 (amended): when the response has status 200 and the path engine finds no
value in the (malformed) body, `find` does not fail; it returns the record with
ip the target ip, url the substituted URL, and countryName, city, isp and org
empty. -/
theorem find_malformed_record (env : Env) (ip : String) (provider : ipInfo) (body : String)
    (hget : env.Get (ReplaceAll provider.url "1.1.1.1" ip) = .response 200 body)
    (hnone : ∀ path, env.lookup body path = none) :
    find env ip provider =
      { ip := ip, countryName := "", city := "", isp := "", org := "",
        url := ReplaceAll provider.url "1.1.1.1" ip } := by
  rw [find_of_status_ok env ip provider body hget]
  simp [hnone, resultString]

/-- C3 (amended) at ip-api.com, target 8.8.8.8 and the truncated body. -/
theorem find_malformed_record_witness :
    find (fixedEnv 200 truncatedBody) "8.8.8.8" ipApiCom =
      { ip := "8.8.8.8", countryName := "", city := "", isp := "", org := "",
        url := ReplaceAll "http://ip-api.com/json/1.1.1.1" "1.1.1.1" "8.8.8.8" } :=
  find_malformed_record (fixedEnv 200 truncatedBody) "8.8.8.8" ipApiCom truncatedBody rfl
    jsonLookup_truncatedBody

/-- C4: for a registered provider and a status-200 body in which the path engine
finds no value at the provider's ISP path and finds non-empty values at its
country, city and organization paths, `find` returns the record with isp empty
and countryName, city and org the values found (so the three are not empty, and
ip and url are filled in as for any status-200 response).  The ISP path of such
a provider differs from its organization path. -/
theorem find_missing_isp (env : Env) (ip : String) (provider : ipInfo) (body : String)
    (country city org : String) (_hreg : provider ∈ providers)
    (hget : env.Get (ReplaceAll provider.url "1.1.1.1" ip) = .response 200 body)
    (hisp : env.lookup body provider.isp = none)
    (hcountry : env.lookup body provider.countryName = some country)
    (hcity : env.lookup body provider.city = some city)
    (horg : env.lookup body provider.org = some org)
    (hne : country ≠ "" ∧ city ≠ "" ∧ org ≠ "") :
    find env ip provider =
        { ip := ip, countryName := country, city := city, isp := "", org := org,
          url := ReplaceAll provider.url "1.1.1.1" ip } ∧
      (find env ip provider).isp = "" ∧
      (find env ip provider).countryName ≠ "" ∧
      (find env ip provider).city ≠ "" ∧
      (find env ip provider).org ≠ "" ∧
      provider.isp ≠ provider.org := by
  have h := find_of_status_ok env ip provider body hget
  rw [hisp, hcountry, hcity, horg] at h
  simp only [resultString] at h
  rw [h]
  refine ⟨rfl, rfl, hne.1, hne.2.1, hne.2.2, ?_⟩
  intro hsame
  rw [hsame, horg] at hisp
  exact Option.noConfusion hisp

/-- C4 at ip-api.com, target 8.8.8.8 and a body without an ISP field. -/
theorem find_missing_isp_witness :
    find (fixedEnv 200 noIspBody) "8.8.8.8" ipApiCom =
      { ip := "8.8.8.8", countryName := "Wakanda", city := "Test", isp := "", org := "X",
        url := "http://ip-api.com/json/8.8.8.8" } :=
  (find_missing_isp (fixedEnv 200 noIspBody) "8.8.8.8" ipApiCom noIspBody "Wakanda" "Test" "X"
    (by decide) rfl (by decide) (by decide) (by decide) (by decide) (by decide)).1.trans
    (by decide)

/-! ## URL substitution -/

/-- An occurrence of `pat` in `l₁ ++ a :: l₂` lies in `l₁` or in `l₂` when `a` is
not a character of `pat`. -/
theorem infix_of_infix_append_cons {pat l₁ l₂ : List Char} {a : Char} (ha : a ∉ pat)
    (h : pat <:+: l₁ ++ a :: l₂) : pat <:+: l₁ ∨ pat <:+: l₂ := by
  obtain ⟨s, t, hst⟩ := h
  rw [List.append_assoc, List.append_eq_append_iff] at hst
  rcases hst with ⟨u, hl, hu⟩ | ⟨u, hs, hu⟩
  · -- the occurrence starts inside l₁
    rw [List.append_eq_append_iff] at hu
    rcases hu with ⟨v, hv, _⟩ | ⟨v, hv, hv'⟩
    · left
      exact ⟨s, v, by rw [hl, hv, List.append_assoc]⟩
    · cases v with
      | nil =>
        left
        refine ⟨s, [], ?_⟩
        rw [hl, hv]
        simp
      | cons b v =>
        exfalso
        simp only [List.cons_append, List.cons.injEq] at hv'
        apply ha
        rw [hv, hv'.1]
        simp
  · -- the occurrence starts at a or after it
    cases u with
    | nil =>
      cases pat with
      | nil => left; exact List.nil_infix
      | cons b pat =>
        exfalso
        simp only [List.nil_append, List.cons_append, List.cons.injEq] at hu
        apply ha
        rw [hu.1]
        simp
    | cons b u =>
      right
      simp only [List.cons_append, List.cons.injEq] at hu
      exact ⟨u, t, by rw [hu.2, List.append_assoc]⟩

/-- An occurrence of `pat` in `pre ++ a :: (mid ++ suf)` lies in `mid` when `a`,
and the first character of `suf`, are not characters of `pat` and `pat` occurs
neither in `pre` nor in the rest of `suf`. -/
theorem infix_sandwich_iff (pat pre mid suf : List Char) (a : Char) (ha : a ∉ pat)
    (hpre : ¬ pat <:+: pre)
    (hsuf : suf = [] ∨ ∃ b suf', suf = b :: suf' ∧ b ∉ pat ∧ ¬ pat <:+: suf') :
    pat <:+: pre ++ a :: (mid ++ suf) ↔ pat <:+: mid := by
  constructor
  · intro h
    rcases infix_of_infix_append_cons ha h with h1 | h2
    · exact absurd h1 hpre
    · rcases hsuf with rfl | ⟨b, suf', rfl, hb, hs⟩
      · simpa using h2
      · rcases infix_of_infix_append_cons hb h2 with h3 | h4
        · exact h3
        · exact absurd h4 hs
  · rintro ⟨s, t, rfl⟩
    exact ⟨pre ++ a :: s, t ++ suf, by simp⟩

/-- The URL `find` queries at each registered provider, for every target. -/
theorem url_of_providers (ip : String) (provider : ipInfo) (hreg : provider ∈ providers) :
    (provider.url = "https://ipapi.co/1.1.1.1/json/" ∧
        ReplaceAll provider.url "1.1.1.1" ip = "https://ipapi.co/" ++ ip ++ "/json/") ∨
      (provider.url = "http://ip-api.com/json/1.1.1.1" ∧
        ReplaceAll provider.url "1.1.1.1" ip = "http://ip-api.com/json/" ++ ip ++ "") ∨
      (provider.url = "http://ipinfo.io/1.1.1.1/json" ∧
        ReplaceAll provider.url "1.1.1.1" ip = "http://ipinfo.io/" ++ ip ++ "/json") ∨
      (provider.url = "http://ip.qste.com/json?ip=1.1.1.1" ∧
        ReplaceAll provider.url "1.1.1.1" ip = "http://ip.qste.com/json?ip=" ++ ip ++ "") := by
  simp only [providers, List.mem_cons, List.mem_singleton, List.not_mem_nil, or_false] at hreg
  rcases hreg with rfl | rfl | rfl | rfl
  · exact Or.inl ⟨rfl, rfl⟩
  · exact Or.inr (Or.inl ⟨rfl, rfl⟩)
  · exact Or.inr (Or.inr (Or.inl ⟨rfl, rfl⟩))
  · exact Or.inr (Or.inr (Or.inr ⟨rfl, rfl⟩))

/-- C5, as stated, fails: `1.1.1.1` and `11.1.1.1` are valid dotted quads, and
the URL built for them at ip-api.com contains the placeholder literal. -/
theorem url_contains_placeholder :
    isIPv4 "1.1.1.1" = true ∧ ipApiCom ∈ providers ∧
      ReplaceAll ipApiCom.url "1.1.1.1" "1.1.1.1" = "http://ip-api.com/json/1.1.1.1" ∧
      Contains (ReplaceAll ipApiCom.url "1.1.1.1" "1.1.1.1") "1.1.1.1" ∧
      isIPv4 "11.1.1.1" = true ∧
      ReplaceAll ipApiCom.url "1.1.1.1" "11.1.1.1" = "http://ip-api.com/json/11.1.1.1" ∧
      Contains (ReplaceAll ipApiCom.url "1.1.1.1" "11.1.1.1") "1.1.1.1" := by
  decide

/-- C5 (amended): for every valid dotted quad `ip` and every registered provider,
the URL built by `find` contains `ip` as a substring, and it contains the
placeholder literal `1.1.1.1` exactly when `ip` itself does. -/
theorem url_contains_ip (ip : String) (provider : ipInfo) (_hip : isIPv4 ip = true)
    (hreg : provider ∈ providers) :
    Contains (ReplaceAll provider.url "1.1.1.1" ip) ip ∧
      (Contains (ReplaceAll provider.url "1.1.1.1" ip) "1.1.1.1" ↔ Contains ip "1.1.1.1") := by
  rcases url_of_providers ip provider hreg with ⟨_, h⟩ | ⟨_, h⟩ | ⟨_, h⟩ | ⟨_, h⟩
  · rw [h]
    refine ⟨⟨"https://ipapi.co/".data, "/json/".data, rfl⟩, ?_⟩
    exact infix_sandwich_iff "1.1.1.1".data "https://ipapi.co".data ip.data "/json/".data '/'
      (by decide) (by decide) (Or.inr ⟨'/', "json/".data, rfl, by decide, by decide⟩)
  · rw [h]
    refine ⟨⟨"http://ip-api.com/json/".data, [], rfl⟩, ?_⟩
    exact infix_sandwich_iff "1.1.1.1".data "http://ip-api.com/json".data ip.data [] '/'
      (by decide) (by decide) (Or.inl rfl)
  · rw [h]
    refine ⟨⟨"http://ipinfo.io/".data, "/json".data, rfl⟩, ?_⟩
    exact infix_sandwich_iff "1.1.1.1".data "http://ipinfo.io".data ip.data "/json".data '/'
      (by decide) (by decide) (Or.inr ⟨'/', "json".data, rfl, by decide, by decide⟩)
  · rw [h]
    refine ⟨⟨"http://ip.qste.com/json?ip=".data, [], rfl⟩, ?_⟩
    exact infix_sandwich_iff "1.1.1.1".data "http://ip.qste.com/json?ip".data ip.data [] '='
      (by decide) (by decide) (Or.inl rfl)

/-- C5 (amended) at ip-api.com and 8.8.8.8: the URL contains 8.8.8.8 and not the
placeholder. -/
theorem url_contains_ip_witness :
    Contains (ReplaceAll ipApiCom.url "1.1.1.1" "8.8.8.8") "8.8.8.8" ∧
      ¬ Contains (ReplaceAll ipApiCom.url "1.1.1.1" "8.8.8.8") "1.1.1.1" :=
  ⟨(url_contains_ip "8.8.8.8" ipApiCom (by decide) (by decide)).1,
    fun h => absurd ((url_contains_ip "8.8.8.8" ipApiCom (by decide) (by decide)).2.mp h)
      (by decide)⟩

/-- C7: every entry of the `providers` table has a url template in which the
placeholder `1.1.1.1` occurs exactly once (one replacement is made, and the
literal starts at one position only), so that for every ip the substituted
URL is the template's text before the placeholder, followed by ip, followed by
the template's text after it. -/
theorem providers_placeholder_once (provider : ipInfo) (hreg : provider ∈ providers) :
    Count provider.url "1.1.1.1" = 1 ∧ Occurrences provider.url "1.1.1.1" = 1 ∧
      ∃ before after, Cut provider.url "1.1.1.1" = some (before, after) ∧
        provider.url = before ++ "1.1.1.1" ++ after ∧
        ∀ ip, ReplaceAll provider.url "1.1.1.1" ip = before ++ ip ++ after := by
  rcases url_of_providers "" provider hreg with ⟨h, _⟩ | ⟨h, _⟩ | ⟨h, _⟩ | ⟨h, _⟩
  · rw [h]
    exact ⟨by decide, by decide, "https://ipapi.co/", "/json/", by decide, by decide, fun _ => rfl⟩
  · rw [h]
    exact ⟨by decide, by decide, "http://ip-api.com/json/", "", by decide, by decide, fun _ => rfl⟩
  · rw [h]
    exact ⟨by decide, by decide, "http://ipinfo.io/", "/json", by decide, by decide, fun _ => rfl⟩
  · rw [h]
    exact ⟨by decide, by decide, "http://ip.qste.com/json?ip=", "", by decide, by decide, fun _ => rfl⟩

/-- C7 at ip-api.com: one occurrence, and the URL for 8.8.8.8. -/
theorem providers_placeholder_once_witness :
    Count ipApiCom.url "1.1.1.1" = 1 ∧
      ReplaceAll ipApiCom.url "1.1.1.1" "8.8.8.8" = "http://ip-api.com/json/8.8.8.8" :=
  ⟨(providers_placeholder_once ipApiCom (by decide)).1, by decide⟩

/-! ## The list handlers -/

/-- The second loop of `EqualFold` accepts equal strings. -/
theorem equalFoldUnicode_self (SimpleFold : Nat → Nat) (bound : Nat) (s : List Char) :
    equalFoldUnicode SimpleFold bound s s = true := by
  induction s with
  | nil => rfl
  | cons c s ih => simp [equalFoldUnicode, ih]

/-- The first loop of `EqualFold` accepts equal strings. -/
theorem equalFoldASCII_self (SimpleFold : Nat → Nat) (bound : Nat) (s : List Char) :
    equalFoldASCII SimpleFold bound s s = true := by
  induction s with
  | nil => rfl
  | cons c s ih =>
    by_cases h : 128 ≤ c.toNat
    · simp [equalFoldASCII, h, equalFoldUnicode_self]
    · simp [equalFoldASCII, h, ih]

/-- The function `EqualFold` is reflexive, whatever the fold table. -/
theorem EqualFold_self (SimpleFold : Nat → Nat) (bound : Nat) (s : String) :
    EqualFold SimpleFold bound s s = true :=
  equalFoldASCII_self SimpleFold bound s.data

/-- The condition of the update callback is the `EqualFold` test. -/
theorem condition_iff_EqualFold (SimpleFold : Nat → Nat) (bound : Nat) (d : ipInfo) :
    (d.isp = d.org ∨ EqualFold SimpleFold bound d.isp d.org = true) ↔
      EqualFold SimpleFold bound d.isp d.org = true := by
  constructor
  · rintro (h | h)
    · rw [h]
      exact EqualFold_self SimpleFold bound d.org
    · exact h
  · exact Or.inr

/-- The calls of the update callback, by the `EqualFold` test alone. -/
theorem updateItem_eq (SimpleFold : Nat → Nat) (bound : Nat) (data : List ipInfo) (i : Nat)
    (d : ipInfo) (hrow : data[i]? = some d) :
    updateItem SimpleFold bound data i =
      some (commonOps d ++
        if EqualFold SimpleFold bound d.isp d.org = true then combinedOps i d
        else separateOps d) := by
  unfold updateItem
  rw [hrow]
  by_cases h : EqualFold SimpleFold bound d.isp d.org = true
  · simp [h]
  · have hne : ¬ (d.isp = d.org ∨ EqualFold SimpleFold bound d.isp d.org = true) :=
      fun hc => h ((condition_iff_EqualFold SimpleFold bound d).mp hc)
    simp only [if_neg hne, if_neg h]

/-- The branch the update callback takes: it makes the calls of the combined
branch (text `ISP/ORG: ` + isp, `Hide` on the ORG label) if and only if isp and
org are equal under `EqualFold`, and the calls of the other branch (texts
`ISP: ` + isp and `ORG: ` + org) otherwise; the exact-equality test of the
condition never changes the decision. -/
theorem updateItem_branch_iff (SimpleFold : Nat → Nat) (bound : Nat) (data : List ipInfo)
    (i : Nat) (d : ipInfo) (hrow : data[i]? = some d) :
    (updateItem SimpleFold bound data i = some (commonOps d ++ combinedOps i d) ↔
        EqualFold SimpleFold bound d.isp d.org = true) ∧
      (updateItem SimpleFold bound data i = some (commonOps d ++ separateOps d) ↔
        EqualFold SimpleFold bound d.isp d.org = false) ∧
      (combinedOps i d =
        [.SetText .isp ("ISP/ORG: " ++ d.isp), .Hide .org, .SetItemHeight i]) ∧
      (separateOps d = [.SetText .isp ("ISP: " ++ d.isp), .SetText .org ("ORG: " ++ d.org)]) ∧
      ((d.isp = d.org ∨ EqualFold SimpleFold bound d.isp d.org = true) ↔
        EqualFold SimpleFold bound d.isp d.org = true) := by
  have hupd := updateItem_eq SimpleFold bound data i d hrow
  refine ⟨?_, ?_, rfl, rfl, condition_iff_EqualFold SimpleFold bound d⟩
  · by_cases h : EqualFold SimpleFold bound d.isp d.org = true
    · simp [hupd, h]
    · simp [hupd, h, combinedOps, separateOps]
  · by_cases h : EqualFold SimpleFold bound d.isp d.org = true
    · simp [hupd, h, combinedOps, separateOps]
    · simp [hupd, h]

/-- The other branch of the update callback leaves the visibility of the ORG
label and the rows with a height of their own as it finds them: for a record
whose isp and org are not equal under `EqualFold`, the ORG label is hidden
after the call exactly when it was hidden before. -/
theorem updateItemOn_separate (SimpleFold : Nat → Nat) (bound : Nat) (data : List ipInfo)
    (i : Nat) (d : ipInfo) (o : ItemView) (hrow : data[i]? = some d)
    (hne : EqualFold SimpleFold bound d.isp d.org = false) :
    ∃ o', updateItemOn SimpleFold bound data i o = some o' ∧
      o'.texts .isp = "ISP: " ++ d.isp ∧ o'.texts .org = "ORG: " ++ d.org ∧
      o'.hidden .org = o.hidden .org ∧ o'.ownHeight = o.ownHeight := by
  have hupd := updateItem_eq SimpleFold bound data i d hrow
  rw [hne] at hupd
  simp only [Bool.false_eq_true, if_false] at hupd
  refine ⟨(commonOps d ++ separateOps d).foldl applyOp o, ?_, ?_, ?_, ?_, ?_⟩
  · simp only [updateItemOn, hupd]
  · simp [commonOps, separateOps, applyOp, Function.update]
  · simp [commonOps, separateOps, applyOp, Function.update]
  · simp [commonOps, separateOps, applyOp]
  · simp [commonOps, separateOps, applyOp]

/-- C8, at the input on which the code departs from it: the item of row 0, first
bound to a record with ISP `Google LLC` and ORG `GOOGLE LLC` (combined: the ORG
label is hidden) and then bound again to a record with ISP `Level 3` and ORG
`Google LLC`.  The two are not equal under `EqualFold` and the callback sets
the texts `ISP: Level 3` and `ORG: Google LLC`, but the ORG label stays hidden
and row 0 keeps the height of a combined row, because the branch has no `Show`.
On a newly created item the same record leaves the ORG label visible. -/
theorem updateItem_reused_item_org_hidden :
    EqualFold noFold 4 level3Info.isp level3Info.org = false ∧
      ((updateItemOn noFold 4 [googleInfo] 0 createItem).map
        (fun o => (o.texts .isp, o.hidden .org))) = some ("ISP/ORG: Google LLC", true) ∧
      (((updateItemOn noFold 4 [googleInfo] 0 createItem).bind
          (updateItemOn noFold 4 [level3Info] 0)).map
        (fun o => (o.texts .isp, o.texts .org, o.hidden .org, o.ownHeight))) =
        some ("ISP: Level 3", "ORG: Google LLC", true, [0]) ∧
      ((updateItemOn noFold 4 [level3Info] 0 createItem).map
        (fun o => (o.texts .isp, o.texts .org, o.hidden .org, o.ownHeight))) =
        some ("ISP: Level 3", "ORG: Google LLC", false, []) := by
  decide

/-- A provider whose ISP and organization paths coincide yields records with
equal isp and org. -/
theorem find_isp_eq_org (env : Env) (ip : String) (provider : ipInfo)
    (hpath : provider.isp = provider.org) :
    (find env ip provider).isp = (find env ip provider).org := by
  unfold find
  simp only []
  split
  · rfl
  · split
    · rfl
    · simp [hpath]

/-- C10: for the registered providers ipapi.co and ipinfo.io both the isp and
the org field path are `org`, every record `find` returns for them (for every
ip and every response, successful or failed) has isp equal to org, and the
update callback takes the combined `ISP/ORG` branch on such a record. -/
theorem same_path_providers_combined (SimpleFold : Nat → Nat) (bound : Nat) (env : Env)
    (ip : String) (provider : ipInfo) (hreg : provider ∈ providers)
    (hurl : provider.url = "https://ipapi.co/1.1.1.1/json/" ∨
      provider.url = "http://ipinfo.io/1.1.1.1/json") :
    provider.isp = "org" ∧ provider.org = "org" ∧
      (find env ip provider).isp = (find env ip provider).org ∧
      ∀ (data : List ipInfo) (i : Nat), data[i]? = some (find env ip provider) →
        updateItem SimpleFold bound data i =
          some (commonOps (find env ip provider) ++ combinedOps i (find env ip provider)) := by
  have hpaths : provider.isp = "org" ∧ provider.org = "org" := by
    simp only [providers, List.mem_cons, List.mem_singleton, List.not_mem_nil, or_false] at hreg
    rcases hreg with rfl | rfl | rfl | rfl
    · exact ⟨rfl, rfl⟩
    · exact absurd hurl (by decide)
    · exact ⟨rfl, rfl⟩
    · exact absurd hurl (by decide)
  have hsame := find_isp_eq_org env ip provider (hpaths.1.trans hpaths.2.symm)
  refine ⟨hpaths.1, hpaths.2, hsame, ?_⟩
  intro data i hrow
  rw [updateItem_eq SimpleFold bound data i _ hrow, hsame,
    if_pos (EqualFold_self SimpleFold bound _)]

/-- C10 at ipapi.co: a successful and a failed query both give isp equal to
org. -/
theorem same_path_providers_combined_witness :
    (find (fixedEnv 200 wakandaBody) "8.8.8.8" ipapiCo).isp = "X" ∧
      (find (fixedEnv 200 wakandaBody) "8.8.8.8" ipapiCo).org = "X" ∧
      (find downEnv "8.8.8.8" ipapiCo).isp = (find downEnv "8.8.8.8" ipapiCo).org :=
  ⟨by decide,
    (same_path_providers_combined noFold 4 (fixedEnv 200 wakandaBody) "8.8.8.8" ipapiCo
      (by decide) (Or.inl rfl)).2.2.1.symm.trans (by decide),
    (same_path_providers_combined noFold 4 downEnv "8.8.8.8" ipapiCo (by decide)
      (Or.inl rfl)).2.2.1⟩

/-! ## The result channel -/

/-- The invariant holds when `findIPResults` returns. -/
theorem inv_findIPResults (env : Env) (ip : String) : Inv env ip (findIPResults ip) := by
  refine ⟨?_, Nat.zero_le _, ?_⟩
  · intro g hg
    simp only [findIPResults, List.mem_map, List.mem_range] at hg
    obtain ⟨i, hi, rfl⟩ := hg
    exact hi
  · exact List.Perm.of_eq rfl

/-- A step keeps the invariant and uses up one of the steps left. -/
theorem inv_step (env : Env) (ip : String) (s s' : ChanState) (a : Action)
    (hinv : Inv env ip s) (hstep : step env s a = some s') :
    Inv env ip s' ∧ stepsLeft s' + 1 = stepsLeft s := by
  obtain ⟨hbound, hcap, hperm⟩ := hinv
  cases a with
  | send g =>
    simp only [step] at hstep
    cases hp : providers[g.i]? with
    | none => simp [hp] at hstep
    | some provider =>
      simp only [hp] at hstep
      by_cases hc : g ∈ s.pending ∧ s.buf.length < chanCap
      · rw [if_pos hc] at hstep
        cases Option.some.inj hstep
        have hres : resultOf env g = find env g.ip provider := by simp [resultOf, hp]
        have hlen : (s.pending.erase g).length + 1 = s.pending.length := by
          rw [List.length_erase_of_mem hc.1]
          have : 0 < s.pending.length := List.length_pos_of_mem hc.1
          omega
        refine ⟨⟨?_, ?_, ?_⟩, ?_⟩
        · intro j hj
          exact hbound j (List.mem_of_mem_erase hj)
        · simp only [List.length_append, List.length_singleton]
          omega
        · have h1 : List.Perm (resultOf env g :: (s.pending.erase g).map (resultOf env))
              (s.pending.map (resultOf env)) :=
            ((List.perm_cons_erase hc.1).map (resultOf env)).symm
          have h2 : s.received ++ (s.buf ++ [find env g.ip provider]) ++
                (s.pending.erase g).map (resultOf env) =
              s.received ++ s.buf ++
                (resultOf env g :: (s.pending.erase g).map (resultOf env)) := by
            rw [hres]
            simp
          rw [h2]
          exact (List.Perm.append_left _ h1).trans hperm
        · simp only [stepsLeft, List.length_append, List.length_singleton]
          omega
      · rw [if_neg hc] at hstep
        exact Option.noConfusion hstep
  | recv =>
    simp only [step] at hstep
    cases hb : s.buf with
    | nil => simp [hb] at hstep
    | cons info rest =>
      simp only [hb] at hstep
      cases Option.some.inj hstep
      rw [hb] at hcap hperm
      refine ⟨⟨hbound, ?_, ?_⟩, ?_⟩
      · simp only [List.length_cons] at hcap
        show rest.length ≤ chanCap
        omega
      · have h2 : s.received ++ [info] ++ rest ++ s.pending.map (resultOf env) =
            s.received ++ info :: rest ++ s.pending.map (resultOf env) := by
          simp
        show List.Perm (s.received ++ [info] ++ rest ++ s.pending.map (resultOf env)) _
        rw [h2]
        exact hperm
      · simp only [stepsLeft, hb, List.length_cons]
        omega

/-- A run keeps the invariant and uses up one of the steps left per action. -/
theorem inv_run (env : Env) (ip : String) (schedule : List Action) (s s' : ChanState)
    (hinv : Inv env ip s) (hrun : run env s schedule = some s') :
    Inv env ip s' ∧ stepsLeft s' + schedule.length = stepsLeft s := by
  induction schedule generalizing s with
  | nil =>
    simp only [run] at hrun
    cases Option.some.inj hrun
    exact ⟨hinv, rfl⟩
  | cons a rest ih =>
    simp only [run] at hrun
    cases hs : step env s a with
    | none => simp [hs] at hrun
    | some mid =>
      simp only [hs] at hrun
      obtain ⟨hmid, hleft⟩ := inv_step env ip s mid a hinv hs
      obtain ⟨hfin, hleft'⟩ := ih mid hmid hrun
      refine ⟨hfin, ?_⟩
      simp only [List.length_cons]
      omega

/-- A pending goroutine of the table can send when the buffer has room. -/
theorem send_enabled (env : Env) (s : ChanState) (g : Goroutine)
    (hg : g ∈ s.pending) (hlt : g.i < providers.length) (hroom : s.buf.length < chanCap) :
    (step env s (.send g)).isSome = true := by
  have hp : providers[g.i]? = some providers[g.i] := List.getElem?_eq_getElem hlt
  simp [step, hp, hg, hroom]

/-- The schedule `inOrder` runs to the end and delivers the records in the order
of the table. -/
theorem run_inOrder (env : Env) (ip : String) :
    run env (findIPResults ip) (inOrder ip) =
      some { pending := [], buf := [], received := providers.map (find env ip) } := by
  simp [run, step, inOrder, findIPResults, providers, chanCap, List.range, List.range.loop]

/-- C6: for every target ip, every client (so every combination of per-provider
outcomes) and every schedule of sends and receives that `findIPResults` admits,
the schedule has at most 2N steps, N = 4 the number of registered providers (a
system that keeps moving stops); the buffer never holds more than 2 records; the
records received, buffered and still to be sent are one per provider; a pending
goroutine can send at once or right after the consumer's next receive (no
producer is blocked forever, although the buffer is smaller than N); as long as
fewer than N records are received some step is possible; when no step is
possible the consumer has received exactly N records, one per provider; and a
schedule that delivers all N records exists. -/
theorem findIPResults_delivers_all (env : Env) (ip : String) (schedule : List Action)
    (s : ChanState) (hrun : run env (findIPResults ip) schedule = some s) :
    providers.length = 4 ∧ chanCap = 2 ∧
      schedule.length + stepsLeft s = 2 * providers.length ∧
      s.buf.length ≤ chanCap ∧
      List.Perm (s.received ++ s.buf ++ s.pending.map (resultOf env))
        (providers.map (find env ip)) ∧
      (∀ g ∈ s.pending, (step env s (.send g)).isSome = true ∨
        ∃ s', step env s .recv = some s' ∧ (step env s' (.send g)).isSome = true) ∧
      (s.received.length < providers.length → ∃ a s', step env s a = some s') ∧
      ((∀ a, step env s a = none) →
        s.received.length = providers.length ∧
          List.Perm s.received (providers.map (find env ip))) ∧
      run env (findIPResults ip) (inOrder ip) =
        some { pending := [], buf := [], received := providers.map (find env ip) } := by
  obtain ⟨⟨hbound, hcap, hperm⟩, hleft⟩ :=
    inv_run env ip schedule (findIPResults ip) s (inv_findIPResults env ip) hrun
  have hlen := hperm.length_eq
  simp only [List.length_append, List.length_map] at hlen
  refine ⟨rfl, rfl, ?_, hcap, hperm, ?_, ?_, ?_, run_inOrder env ip⟩
  · have h0 : stepsLeft (findIPResults ip) = 2 * providers.length := rfl
    omega
  · intro g hg
    by_cases hroom : s.buf.length < chanCap
    · exact Or.inl (send_enabled env s g hg (hbound g hg) hroom)
    · right
      cases hb : s.buf with
      | nil =>
        rw [hb] at hroom
        exact absurd (by decide) hroom
      | cons info rest =>
        refine ⟨{ pending := s.pending, buf := rest, received := s.received ++ [info] }, ?_, ?_⟩
        · simp [step, hb]
        · refine send_enabled env ⟨s.pending, rest, s.received ++ [info]⟩ g hg
            (hbound g hg) ?_
          rw [hb] at hcap
          simp only [List.length_cons] at hcap
          show rest.length < chanCap
          omega
  · intro hlt
    cases hb : s.buf with
    | cons info rest =>
      exact ⟨.recv, { pending := s.pending, buf := rest, received := s.received ++ [info] },
        by simp [step, hb]⟩
    | nil =>
      cases hpd : s.pending with
      | nil =>
        rw [hb, hpd] at hlen
        simp only [List.length_nil] at hlen
        omega
      | cons g rest =>
        have hg : g ∈ s.pending := by rw [hpd]; exact List.mem_cons_self g rest
        have hsome := send_enabled env s g hg (hbound g hg) (by rw [hb]; decide)
        obtain ⟨s', hs'⟩ := Option.isSome_iff_exists.mp hsome
        exact ⟨.send g, s', hs'⟩
  · intro hstuck
    have hb : s.buf = [] := by
      cases hb : s.buf with
      | nil => rfl
      | cons info rest =>
        have := hstuck .recv
        simp [step, hb] at this
    have hpd : s.pending = [] := by
      cases hpd : s.pending with
      | nil => rfl
      | cons g rest =>
        have hg : g ∈ s.pending := by rw [hpd]; exact List.mem_cons_self g rest
        have hsome := send_enabled env s g hg (hbound g hg) (by rw [hb]; decide)
        rw [hstuck (.send g)] at hsome
        exact absurd hsome (by decide)
    rw [hb, hpd] at hperm hlen
    simp only [List.map_nil, List.append_nil] at hperm
    simp only [List.length_nil] at hlen
    exact ⟨by omega, hperm⟩

/-- C6 on the staggered schedule, with every provider answering status 200: the
run ends with nothing pending, an empty buffer and the four records received in
the order the goroutines sent them. -/
theorem findIPResults_delivers_all_witness :
    run (fixedEnv 200 wakandaBody) (findIPResults "8.8.8.8") staggered =
        some { pending := [], buf := [],
               received := staggeredOrder.map (resultOf (fixedEnv 200 wakandaBody)) } ∧
      staggered.length + 0 = 2 * providers.length ∧
      List.Perm (staggeredOrder.map (resultOf (fixedEnv 200 wakandaBody)))
        (providers.map (find (fixedEnv 200 wakandaBody) "8.8.8.8")) :=
  have hrun : run (fixedEnv 200 wakandaBody) (findIPResults "8.8.8.8") staggered =
      some { pending := [], buf := [],
             received := staggeredOrder.map (resultOf (fixedEnv 200 wakandaBody)) } := by
    decide
  ⟨hrun,
    (findIPResults_delivers_all (fixedEnv 200 wakandaBody) "8.8.8.8" staggered _ hrun).2.2.1,
    by simpa using
      (findIPResults_delivers_all (fixedEnv 200 wakandaBody) "8.8.8.8" staggered _
        hrun).2.2.2.2.1⟩

end IPLocationFinder
